import Mathlib

/-!
Shallow embedding of the Portfolio-Analyst digest pipeline.

Source files embedded here:
- src/src/news_fetcher.py    (NewsFetcher.fetch_company_news, fetch_all_companies_news)
- src/src/funding_tracker.py (FundingTracker.get_funding_info, get_all_funding_info,
                              format_funding_summary)
- src/src/ai_summarizer.py   (AISummarizer.summarize_company_news, _fallback_summary,
                              summarize_all_companies)
- src/src/digest_generator.py (DigestGenerator.generate_digest, _generate_summary,
                              _format_company_section, generate_subject_line)

External effects (HTTP fetches, XML parsing, date parsing via dateutil, the
text-generation API, datetime.now, HTML cleaning via BeautifulSoup) are passed
in as explicit function parameters; Python dictionaries keyed by company name
are modelled as association lists with insert-or-overwrite semantics, matching
dict assignment; Python string truthiness (None or empty string is falsy) is
modelled explicitly at each use site.
-/

/-- Article record produced by NewsFetcher.fetch_company_news
(news_fetcher.py lines 98-104): title, link, published, source, summary. -/
structure Article where
  title : String
  link : String
  published : String
  source : String
  summary : String
deriving DecidableEq, Repr

/-- One RSS item as seen by the per-item loop in fetch_company_news.
Each field is the text of the corresponding child element, or none when the
element is absent (for pubDate, an element present with empty text behaves
like the empty string, which Python treats as falsy). -/
structure FeedItem where
  title : Option String
  link : Option String
  pubDate : Option String
  itemDesc : Option String
deriving DecidableEq, Repr

/-- The body of the per-item loop of fetch_company_news
(news_fetcher.py lines 64-109).  Returns some article when the item is kept,
none when the loop does continue (missing title or link, a publish date that
fails to parse - dateutil raises and the inner except skips the item - or a
parsed date older than the cutoff).

Parameters standing for external collaborators:
- parseDate: dateutil parser.parse, none when it raises;
- fmtDate:   strftime of the parsed date;
- clean:     the _clean_summary HTML stripping helper.
Timestamps are integers, cutoff is the integer timestamp of
datetime.now() - timedelta(days=days_back). -/
def processItem (parseDate : String → Option Int) (fmtDate : Int → String)
    (clean : String → String) (cutoff : Int) (item : FeedItem) : Option Article :=
  match item.title, item.link with
  | some title, some link =>
    let pubRes : Option String :=
      match item.pubDate with
      | some s =>
        if s = "" then some "Unknown date"
        else
          match parseDate s with
          | some d => if d < cutoff then none else some (fmtDate d)
          | none => none
      | none => some "Unknown date"
    match pubRes with
    | none => none
    | some published =>
      let summary :=
        match item.itemDesc with
        | some d => if d = "" then "" else clean d
        | none => ""
      some { title := title, link := link, published := published,
             source := "Unknown", summary := summary }
  | _, _ => none

/-- NewsFetcher.fetch_company_news (news_fetcher.py lines 29-116).
The feed argument is the outcome of the HTTP request plus XML parse: none when
the outer try block raises (the function then returns the empty list), some
items otherwise.  The loop runs over items[:10] and accumulates the kept
articles in order. -/
def fetch_company_news (parseDate : String → Option Int) (fmtDate : Int → String)
    (clean : String → String) (cutoff : Int)
    (feed : Option (List FeedItem)) : List Article :=
  match feed with
  | none => []
  | some items => (items.take 10).filterMap (processItem parseDate fmtDate clean cutoff)

/-- A configured company: either a bare string, or a dict with optional
name and search keys (news_fetcher.py lines 130-137,
funding_tracker.py lines 84-91). -/
inductive CompanyConfig where
  | plain (s : String)
  | entry (nameKey : Option String) (searchKey : Option String)
deriving DecidableEq, Repr

/-- display_name: company or company.get(name-key, empty). -/
def displayName : CompanyConfig → String
  | .plain s => s
  | .entry n _ => n.getD ""

/-- search_query in fetch_all_companies_news: company.get(search-key,
display_name) for dicts, the string itself otherwise. -/
def newsQuery : CompanyConfig → String
  | .plain s => s
  | .entry n srch => srch.getD (n.getD "")

/-- search_query in get_all_funding_info: always the display name
(funding_tracker.py line 88). -/
def fundingQuery : CompanyConfig → String
  | .plain s => s
  | .entry n _ => n.getD ""

/-- Python dict assignment d[k] = v on an association list: replace the value
at the first matching key in place, or append the new pair at the end. -/
def dictInsert {α : Type} : List (String × α) → String → α → List (String × α)
  | [], k, v => [(k, v)]
  | (k2, v2) :: rest, k, v =>
    if k2 = k then (k, v) :: rest else (k2, v2) :: dictInsert rest k v

/-- Shared shape of the two batch loops: skip companies whose display name is
empty (falsy in Python), otherwise results[display_name] = value(company). -/
def accumulateResults {α : Type} (keyOf : CompanyConfig → String)
    (valOf : CompanyConfig → α) (companies : List CompanyConfig)
    (init : List (String × α)) : List (String × α) :=
  companies.foldl
    (fun results c =>
      if keyOf c = "" then results else dictInsert results (keyOf c) (valOf c))
    init

/-- NewsFetcher.fetch_all_companies_news (news_fetcher.py lines 118-146):
per company, fetch with the search query (the search override for dicts) and
store under the display name; companies with an empty display name are
skipped.  fetchOne stands for the per-company fetch_company_news call. -/
def fetch_all_companies_news (fetchOne : String → List Article)
    (companies : List CompanyConfig) : List (String × List Article) :=
  accumulateResults displayName (fun c => fetchOne (newsQuery c)) companies []

/-- FundingRecord: the funding_info dict built by get_funding_info
(funding_tracker.py lines 36-43). -/
structure FundingRecord where
  company : String
  status : String
  last_funding_round : Option String
  total_raised : Option String
  valuation : Option String
  source : Option String
deriving DecidableEq, Repr

/-- Outcome of the requests.get call inside get_funding_info: either the whole
try block raises (failure), or a response arrives with a status code and the
text that BeautifulSoup extracts from it. -/
inductive SearchOutcome where
  | success (statusCode : Nat) (text : String)
  | failure
deriving DecidableEq, Repr

/-- Python substring test (needle in hay) on character lists. -/
def listHasSub (needle hay : List Char) : Bool :=
  (List.range (hay.length + 1)).any (fun i => (hay.drop i).take needle.length == needle)

/-- Python substring test on strings. -/
def hasSubstring (hay needle : String) : Bool :=
  listHasSub needle.data hay.data

/-- The funding keyword list of get_funding_info (funding_tracker.py line 60). -/
def funding_keywords : List String :=
  ["raised", "funding", "valuation", "Series", "million", "billion"]

/-- FundingTracker.get_funding_info (funding_tracker.py lines 26-70).
search stands for the external search request applied to the company name;
on failure the except clause logs and the unmodified default dict is
returned.  On success with status 200, finding any funding keyword in the
page text flips the status string; nothing else is ever mutated. -/
def get_funding_info (search : String → SearchOutcome)
    (company_name : String) : FundingRecord :=
  let base : FundingRecord :=
    { company := company_name
      status := "No public funding data available"
      last_funding_round := none
      total_raised := none
      valuation := none
      source := none }
  match search company_name with
  | .failure => base
  | .success code text =>
    if code = 200 then
      if funding_keywords.any (fun kw => hasSubstring text kw) then
        { base with status := "Some funding information may be available in search results" }
      else base
    else base

/-- FundingTracker.get_all_funding_info (funding_tracker.py lines 72-101):
per company, look up funding with the display name (never the search
override) and store under the display name; companies with an empty display
name are skipped. -/
def get_all_funding_info (getOne : String → FundingRecord)
    (companies : List CompanyConfig) : List (String × FundingRecord) :=
  accumulateResults displayName (fun c => getOne (fundingQuery c)) companies []

/-- Optional funding field rendering in format_funding_summary: Python tests
the value for truthiness, so none and the empty string both drop the part. -/
def optPart (label : String) (v : Option String) : List String :=
  match v with
  | some s => if s = "" then [] else [label ++ s]
  | none => []

/-- FundingTracker.format_funding_summary (funding_tracker.py lines 103-131). -/
def format_funding_summary (f : FundingRecord) : String :=
  if f.status = "No public funding data available" then
    "No recent public funding data available"
  else
    let parts :=
      optPart "Last Round: " f.last_funding_round
      ++ optPart "Total Raised: " f.total_raised
      ++ optPart "Valuation: " f.valuation
    if parts.isEmpty then f.status else String.intercalate " | " parts

/-- AISummarizer._fallback_summary (ai_summarizer.py lines 88-113). -/
def fallback_summary (company_name : String) (articles : List Article) : String :=
  if articles.isEmpty then company_name ++ " had no news this week."
  else
    let headlines := (articles.take 3).map (fun a => a.title)
    if articles.length = 1 then
      company_name ++ " made headlines with: " ++ headlines.headD ""
    else if articles.length = 2 then
      company_name ++ " had " ++ toString articles.length ++ " news items: "
        ++ headlines.headD "" ++ " and " ++ (headlines.drop 1).headD ""
    else
      let base := company_name ++ " had " ++ toString articles.length
        ++ " news items this week, including: "
        ++ String.intercalate ", " (headlines.take 3)
      if articles.length > 3 then
        base ++ ", and " ++ toString (articles.length - 3) ++ " more."
      else base

/-- The numbered article block of the Claude prompt
(ai_summarizer.py lines 45-53), over articles[:3]. -/
def promptArticleBlock : Nat → List Article → List String
  | _, [] => []
  | i, a :: rest =>
    (toString i ++ ". " ++ a.title ++ "\n   Date: " ++ a.published
      ++ "\n   Summary: " ++ a.summary ++ "\n") :: promptArticleBlock (i + 1) rest

/-- The prompt string of summarize_company_news (ai_summarizer.py lines 56-68). -/
def buildPrompt (company_name : String) (articles : List Article) : String :=
  "Analyze these news headlines about " ++ company_name
    ++ " and create a brief 2-3 sentence summary for an investor.\n\n"
    ++ "IMPORTANT INSTRUCTIONS:\n"
    ++ "- Work with whatever information is available, even if limited to just headlines\n"
    ++ "- Be concise and direct - NO apologies or meta-commentary about limited information\n"
    ++ "- Focus on what IS mentioned, not what is missing\n"
    ++ "- If only headlines are available, synthesize what you can infer\n"
    ++ "- Use confident, factual language\n\nHeadlines/Articles:\n"
    ++ String.intercalate "\n" (promptArticleBlock 1 (articles.take 3))
    ++ "\n\nWrite a concise 2-3 sentence investor summary:"

/-- AISummarizer.summarize_company_news (ai_summarizer.py lines 25-86).
ai stands for the Claude API round trip on the prompt, already stripped;
none models the call raising, in which case the except clause returns the
deterministic fallback. -/
def summarize_company_news (ai : String → Option String)
    (company_name : String) (articles : List Article) : Option String :=
  if articles.isEmpty then none
  else
    match ai (buildPrompt company_name articles) with
    | some s => some s
    | none => some (fallback_summary company_name articles)

/-- AISummarizer.summarize_all_companies (ai_summarizer.py lines 115-138):
companies with articles get a summary from the given per-company generator,
companies without articles are recorded as none and the generator is never
consulted for them (the result does not depend on it there). -/
def summarize_all_companies (summarize : String → List Article → Option String)
    (news_data : List (String × List Article)) : List (String × Option String) :=
  news_data.map (fun p => (p.1, if p.2.isEmpty then none else summarize p.1 p.2))

/-- ASCII upper-casing of one character, modelling Python str.upper on the
basic latin range used by company names. -/
def upperTable : List (Char × Char) :=
  [('a', 'A'), ('b', 'B'), ('c', 'C'), ('d', 'D'), ('e', 'E'), ('f', 'F'),
   ('g', 'G'), ('h', 'H'), ('i', 'I'), ('j', 'J'), ('k', 'K'), ('l', 'L'),
   ('m', 'M'), ('n', 'N'), ('o', 'O'), ('p', 'P'), ('q', 'Q'), ('r', 'R'),
   ('s', 'S'), ('t', 'T'), ('u', 'U'), ('v', 'V'), ('w', 'W'), ('x', 'X'),
   ('y', 'Y'), ('z', 'Z')]

/-- upperChar c is the upper-case counterpart of c for lower-case latin
letters and c itself otherwise. -/
def upperChar (c : Char) : Char :=
  (upperTable.lookup c).getD c

/-- Python str.upper, character by character. -/
def pyUpper (s : String) : String :=
  String.mk (s.data.map upperChar)

/-- The 80-dash separator used throughout digest_generator.py. -/
def dashes : String := String.mk (List.replicate 80 '-')

/-- The 80-equals separator used throughout digest_generator.py. -/
def equalsRow : String := String.mk (List.replicate 80 '=')

/-- Lexicographic comparison of character lists by code point, the order
Python list.sort uses on the company-name keys. -/
def charsLe : List Char → List Char → Bool
  | [], _ => true
  | _ :: _, [] => false
  | a :: as, b :: bs => if a < b then true else if b < a then false else charsLe as bs

/-- insertion step of the stable sort by company name. -/
def insertByName {α : Type} (x : String × α) : List (String × α) → List (String × α)
  | [] => [x]
  | y :: ys => if charsLe x.1.data y.1.data then x :: y :: ys else y :: insertByName x ys

/-- Stable sort of (name, payload) pairs by name, modelling
companies.sort(key equal to the name) in generate_digest
(digest_generator.py lines 55-56). -/
def sortByName {α : Type} : List (String × α) → List (String × α)
  | [] => []
  | x :: xs => insertByName x (sortByName xs)

/-- companies_with_news of generate_digest (digest_generator.py lines 52, 55):
the companies whose article list is non-empty, sorted by name. -/
def withNews (news_data : List (String × List Article)) : List (String × List Article) :=
  sortByName (news_data.filter (fun p => !p.2.isEmpty))

/-- companies_without_news of generate_digest (digest_generator.py
lines 53, 56): the companies whose article list is empty, sorted by name. -/
def withoutNews (news_data : List (String × List Article)) : List (String × List Article) :=
  sortByName (news_data.filter (fun p => p.2.isEmpty))

/-- companies_with_news as counted by _generate_summary and
generate_subject_line (digest_generator.py lines 97, 163). -/
def companiesWithNews (news_data : List (String × List Article)) : Nat :=
  (news_data.filter (fun p => !p.2.isEmpty)).length

/-- total_articles of _generate_summary and generate_subject_line
(digest_generator.py lines 98, 164). -/
def totalArticles (news_data : List (String × List Article)) : Nat :=
  (news_data.map (fun p => p.2.length)).sum

/-- The numbered article lines of _format_company_section
(digest_generator.py lines 150-154), enumerating from 1. -/
def articleLines : Nat → List Article → List String
  | _, [] => []
  | i, a :: rest =>
    ("  [" ++ toString i ++ "] " ++ a.title)
      :: ("      " ++ a.link)
      :: ("      " ++ a.source ++ " | " ++ a.published)
      :: "" :: articleLines (i + 1) rest

/-- The lines list built by DigestGenerator._format_company_section
(digest_generator.py lines 115-159).  funding_info is none when the company
is absent from the funding mapping (or the whole mapping is absent);
ai_summary is tested for truthiness, so none and the empty string both skip
the summary block. -/
def sectionLines (company_name : String) (articles : List Article)
    (funding_info : Option FundingRecord) (ai_summary : Option String) : List String :=
  [dashes, pyUpper company_name, dashes, ""]
  ++ (match funding_info with
      | some f =>
        let fs := format_funding_summary f
        if fs ≠ "No recent public funding data available" then
          ["Funding: " ++ fs, ""]
        else []
      | none => [])
  ++ (match ai_summary with
      | some s => if s ≠ "" then ["SUMMARY:", "", "  " ++ s, ""] else []
      | none => [])
  ++ (if articles.isEmpty then ["No news this week.", ""]
      else ("LINKS (" ++ toString articles.length ++ " articles):")
        :: "" :: articleLines 1 articles)

/-- _format_company_section as the joined string it returns. -/
def format_company_section (company_name : String) (articles : List Article)
    (funding_info : Option FundingRecord) (ai_summary : Option String) : String :=
  String.intercalate "\n" (sectionLines company_name articles funding_info ai_summary)

/-- The lines of DigestGenerator._generate_summary
(digest_generator.py lines 88-113). -/
def execSummaryLines (news_data : List (String × List Article)) : List String :=
  [dashes, "EXECUTIVE SUMMARY", dashes, "",
   "  Portfolio Companies: " ++ toString news_data.length,
   "  Companies with News: " ++ toString (companiesWithNews news_data),
   "  Total Articles: " ++ toString (totalArticles news_data), ""]
  ++ (if companiesWithNews news_data > 0 then
        "  Companies in the news this week:"
          :: news_data.filterMap (fun p =>
            if p.2.isEmpty then none
            else some ("    • " ++ p.1 ++ " (" ++ toString p.2.length ++ " articles)"))
      else ["  No companies had news this week."])

/-- funding_data.get(name) if funding_data else None
(digest_generator.py line 64). -/
def lookupFunding (funding_data : Option (List (String × FundingRecord)))
    (company_name : String) : Option FundingRecord :=
  match funding_data with
  | none => none
  | some l => l.lookup company_name

/-- ai_summaries.get(name) if ai_summaries else None
(digest_generator.py line 60): a stored value of None and a missing key both
give None, hence the join. -/
def lookupSummary (ai_summaries : Option (List (String × Option String)))
    (company_name : String) : Option String :=
  match ai_summaries with
  | none => none
  | some l => (l.lookup company_name).join

/-- The full flattened line list of DigestGenerator.generate_digest
(digest_generator.py lines 15-86).  digest_date stands for the
formatted construction-time date, generated_ts for the strftime timestamp of
the footer; appending a joined multi-line section and then joining with
newlines is the same as appending its lines, so sections contribute their
lines directly. -/
def digestLines (digest_date generated_ts : String)
    (news_data : List (String × List Article))
    (funding_data : Option (List (String × FundingRecord)))
    (ai_summaries : Option (List (String × Option String))) : List String :=
  [equalsRow, "PORTFOLIO WEEKLY DIGEST", "Week of " ++ digest_date, equalsRow, ""]
  ++ execSummaryLines news_data ++ [""]
  ++ [equalsRow, "DETAILED COMPANY REPORTS", equalsRow, ""]
  ++ (withNews news_data).flatMap (fun p =>
      sectionLines p.1 p.2 (lookupFunding funding_data p.1)
        (lookupSummary ai_summaries p.1) ++ [""])
  ++ (if (withoutNews news_data).isEmpty then []
      else [dashes, "NO NEWS THIS WEEK", dashes, ""]
        ++ (withoutNews news_data).map (fun p => "  • " ++ p.1) ++ [""])
  ++ [equalsRow, "End of digest - Generated on " ++ generated_ts, equalsRow]

/-- DigestGenerator.generate_digest as the string it returns. -/
def generate_digest (digest_date generated_ts : String)
    (news_data : List (String × List Article))
    (funding_data : Option (List (String × FundingRecord)))
    (ai_summaries : Option (List (String × Option String))) : String :=
  String.intercalate "\n" (digestLines digest_date generated_ts news_data funding_data ai_summaries)

/-- DigestGenerator.generate_subject_line (digest_generator.py lines 161-173).
week_of stands for strftime of datetime.now() in the fixed numeric
month/day/year format. -/
def generate_subject_line (week_of : String)
    (news_data : List (String × List Article)) : String :=
  if totalArticles news_data = 0 then
    "Portfolio Digest - Week of " ++ week_of ++ " - Quiet Week"
  else if companiesWithNews news_data = 1 then
    "Portfolio Digest - Week of " ++ week_of ++ " - 1 Company Update"
  else
    "Portfolio Digest - Week of " ++ week_of ++ " - "
      ++ toString (companiesWithNews news_data) ++ " Companies with News"

/-- The fallback summary as a function of the ordered title list alone;
used to show _fallback_summary is a pure function of the company name and
the ordered article titles. -/
def fallbackFromTitles (company_name : String) (titles : List String) : String :=
  if titles.isEmpty then company_name ++ " had no news this week."
  else
    let headlines := titles.take 3
    if titles.length = 1 then
      company_name ++ " made headlines with: " ++ headlines.headD ""
    else if titles.length = 2 then
      company_name ++ " had " ++ toString titles.length ++ " news items: "
        ++ headlines.headD "" ++ " and " ++ (headlines.drop 1).headD ""
    else
      let base := company_name ++ " had " ++ toString titles.length
        ++ " news items this week, including: "
        ++ String.intercalate ", " (headlines.take 3)
      if titles.length > 3 then
        base ++ ", and " ++ toString (titles.length - 3) ++ " more."
      else base

/-! Claim theorems and supporting lemmas. -/

/-- C1 (counterexample): the claim says an item whose publish-date text is
present but unparseable is retained; here is a feed with exactly one such
item (title and link present, pubDate text present and rejected by the
parser) for which fetch_company_news returns the empty list. -/
theorem c1_unparseable_date_dropped_cex :
    (FeedItem.pubDate ⟨some "T", some "L", some "not-a-date", none⟩ = some "not-a-date")
    ∧ ("not-a-date" ≠ "")
    ∧ ((fun _ : String => (none : Option Int)) "not-a-date" = none)
    ∧ fetch_company_news (fun _ => none) (fun _ => "") (fun s => s) 0
        (some [⟨some "T", some "L", some "not-a-date", none⟩]) = [] :=
  ⟨rfl, by decide, rfl, rfl⟩

/-- C1 (amended): items with a missing or empty publish date are retained and
marked Unknown date; items whose publish-date text is present but fails to
parse are dropped by the per-item error handler; items with a successfully
parsed date older than the cutoff are excluded. -/
theorem c1_date_policy_amended :
    ∀ (parseDate : String → Option Int) (fmtDate : Int → String)
      (clean : String → String) (cutoff : Int) (items : List FeedItem)
      (item : FeedItem) (t l : String),
      (item.title = some t → item.link = some l →
        (item.pubDate = none ∨ item.pubDate = some "") →
        item ∈ items.take 10 →
        ∃ a ∈ fetch_company_news parseDate fmtDate clean cutoff (some items),
          a.title = t ∧ a.published = "Unknown date")
      ∧ (∀ s, item.pubDate = some s → s ≠ "" → parseDate s = none →
          processItem parseDate fmtDate clean cutoff item = none)
      ∧ (∀ s d, item.pubDate = some s → s ≠ "" → parseDate s = some d → d < cutoff →
          processItem parseDate fmtDate clean cutoff item = none) := by
  intro parseDate fmtDate clean cutoff items item t l
  refine ⟨?_, ?_, ?_⟩
  · intro ht hl hpd hmem
    have hproc : ∃ a, processItem parseDate fmtDate clean cutoff item = some a
        ∧ a.title = t ∧ a.published = "Unknown date" := by
      rcases hpd with h | h <;> simp [processItem, ht, hl, h]
    obtain ⟨a, ha, hat, hap⟩ := hproc
    refine ⟨a, ?_, hat, hap⟩
    simp only [fetch_company_news]
    exact List.mem_filterMap.2 ⟨item, hmem, ha⟩
  · intro s hs hne hparse
    rcases htl : item.title with _ | t2 <;> rcases hll : item.link with _ | l2 <;>
      simp [processItem, htl, hll, hs, hne, hparse]
  · intro s d hs hne hparse hlt
    rcases htl : item.title with _ | t2 <;> rcases hll : item.link with _ | l2 <;>
      simp [processItem, htl, hll, hs, hne, hparse, hlt]

/-- C1 (amended, witness): on a concrete one-item feed whose item has no
publish date, the article is retained and marked Unknown date. -/
theorem c1_date_policy_amended_witness :
    ∃ a ∈ fetch_company_news (fun _ => none) (fun _ => "") (fun s => s) 0
        (some [⟨some "T", some "L", none, none⟩]),
      a.title = "T" ∧ a.published = "Unknown date" :=
  (c1_date_policy_amended (fun _ => none) (fun _ => "") (fun s => s) 0
      [⟨some "T", some "L", none, none⟩] ⟨some "T", some "L", none, none⟩ "T" "L").1
    rfl rfl (Or.inl rfl) (by decide)

/-- C3: fetch_company_news only draws from the first 10 feed items, returns
at most 10 articles, and preserves feed order (the result is a sublist of
the articles obtainable from the whole feed in feed order). -/
theorem c3_cap_ten_feed_order :
    ∀ (parseDate : String → Option Int) (fmtDate : Int → String)
      (clean : String → String) (cutoff : Int) (items : List FeedItem),
      (fetch_company_news parseDate fmtDate clean cutoff (some items)).length ≤ 10
      ∧ fetch_company_news parseDate fmtDate clean cutoff (some items)
        = fetch_company_news parseDate fmtDate clean cutoff (some (items.take 10))
      ∧ List.Sublist (fetch_company_news parseDate fmtDate clean cutoff (some items))
          (items.filterMap (processItem parseDate fmtDate clean cutoff)) := by
  intro parseDate fmtDate clean cutoff items
  refine ⟨?_, ?_, ?_⟩
  · calc ((items.take 10).filterMap (processItem parseDate fmtDate clean cutoff)).length
        ≤ (items.take 10).length := List.length_filterMap_le _ _
    _ ≤ 10 := List.length_take_le 10 items
  · simp [fetch_company_news, List.take_take]
  · exact (List.take_sublist 10 items).filterMap _

/-- C8: when the external request raises, get_funding_info returns the
unmodified default record and never propagates the failure. -/
theorem c8_funding_failure_default :
    ∀ (search : String → SearchOutcome) (company_name : String),
      search company_name = SearchOutcome.failure →
      get_funding_info search company_name =
        { company := company_name, status := "No public funding data available",
          last_funding_round := none, total_raised := none,
          valuation := none, source := none } := by
  intro search company_name h
  simp [get_funding_info, h]

/-- C8 (witness): a concrete always-failing search yields the default record. -/
theorem c8_funding_failure_default_witness :
    get_funding_info (fun _ => SearchOutcome.failure) "Acme" =
      { company := "Acme", status := "No public funding data available",
        last_funding_round := none, total_raised := none,
        valuation := none, source := none } :=
  c8_funding_failure_default (fun _ => SearchOutcome.failure) "Acme" rfl

/-- C9: on every code path of get_funding_info the structured fields stay
none, the company field is the queried name, and the status is one of the
two fixed strings, becoming the may-be-available marker exactly when the
search succeeds with status 200 and a funding keyword occurs in the text. -/
theorem c9_funding_fields_invariant :
    ∀ (search : String → SearchOutcome) (company_name : String),
      (get_funding_info search company_name).last_funding_round = none
      ∧ (get_funding_info search company_name).total_raised = none
      ∧ (get_funding_info search company_name).valuation = none
      ∧ (get_funding_info search company_name).source = none
      ∧ (get_funding_info search company_name).company = company_name
      ∧ ((get_funding_info search company_name).status = "No public funding data available"
        ∨ (get_funding_info search company_name).status
          = "Some funding information may be available in search results")
      ∧ ((get_funding_info search company_name).status
          = "Some funding information may be available in search results"
        ↔ ∃ text, search company_name = SearchOutcome.success 200 text
            ∧ funding_keywords.any (fun kw => hasSubstring text kw) = true) := by
  intro search company_name
  unfold get_funding_info
  rcases h : search company_name with ⟨code, text⟩ | _
  · by_cases h200 : code = 200
    · by_cases hkw : funding_keywords.any (fun kw => hasSubstring text kw) = true
      · subst h200
        simp [h, hkw]
        exact List.any_eq_true.1 hkw
      · subst h200
        simp [h, hkw]
        intro x hx
        cases hb : hasSubstring text x
        · rfl
        · exact absurd (List.any_eq_true.2 ⟨x, hx, hb⟩) hkw
    · simp [h, h200]
  · simp [h]

/-- When no article exists at all, no company counts as having news. -/
theorem companiesWithNews_eq_zero_of_total (nd : List (String × List Article))
    (h : totalArticles nd = 0) : companiesWithNews nd = 0 := by
  induction nd with
  | nil => simp [companiesWithNews]
  | cons p rest ih =>
    have hsplit : totalArticles (p :: rest) = p.2.length + totalArticles rest := by
      simp [totalArticles]
    rw [hsplit] at h
    have hp2 : p.2 = [] := List.length_eq_zero.1 (by omega)
    have h2 := ih (by omega)
    unfold companiesWithNews at h2 ⊢
    rw [List.filter_cons]
    simp [hp2, h2]

/-- C2: the subject line has exactly the three cases of
generate_subject_line - zero total articles gives the Quiet Week subject,
exactly one company with news gives the 1 Company Update subject, more than
one company with news gives the N Companies with News subject - and in every
case the formatted current date is embedded in the subject. -/
theorem c2_subject_line :
    ∀ (week_of : String) (nd : List (String × List Article)),
      (totalArticles nd = 0 →
        ∃ pre post, generate_subject_line week_of nd = pre ++ ("Quiet Week" ++ post))
      ∧ (companiesWithNews nd = 1 →
        ∃ pre post, generate_subject_line week_of nd = pre ++ ("1 Company Update" ++ post))
      ∧ (1 < companiesWithNews nd →
        ∃ pre post, generate_subject_line week_of nd
          = pre ++ (toString (companiesWithNews nd) ++ (" Companies with News" ++ post)))
      ∧ (∃ pre post, generate_subject_line week_of nd = pre ++ (week_of ++ post)) := by
  intro week_of nd
  refine ⟨?_, ?_, ?_, ?_⟩
  · intro h
    refine ⟨"Portfolio Digest - Week of " ++ week_of ++ " - ", "", ?_⟩
    simp [generate_subject_line, h, String.append_assoc]
  · intro h
    have ht : ¬ totalArticles nd = 0 := fun h0 => by
      have := companiesWithNews_eq_zero_of_total nd h0
      omega
    refine ⟨"Portfolio Digest - Week of " ++ week_of ++ " - ", "", ?_⟩
    simp [generate_subject_line, ht, h, String.append_assoc]
  · intro h
    have ht : ¬ totalArticles nd = 0 := fun h0 => by
      have := companiesWithNews_eq_zero_of_total nd h0
      omega
    have h1 : ¬ companiesWithNews nd = 1 := by omega
    refine ⟨"Portfolio Digest - Week of " ++ week_of ++ " - ", "", ?_⟩
    simp [generate_subject_line, ht, h1, String.append_assoc]
  · unfold generate_subject_line
    split_ifs
    · exact ⟨"Portfolio Digest - Week of ", " - Quiet Week",
        by simp [String.append_assoc]⟩
    · exact ⟨"Portfolio Digest - Week of ", " - 1 Company Update",
        by simp [String.append_assoc]⟩
    · exact ⟨"Portfolio Digest - Week of ",
        " - " ++ toString (companiesWithNews nd) ++ " Companies with News",
        by simp [String.append_assoc]⟩

/-- C2 (witness): with two companies that both have news, the subject embeds
the count and the date. -/
theorem c2_subject_line_witness :
    ∃ pre post,
      generate_subject_line "10/12/2026"
        [("A", [{ title := "t", link := "l", published := "p", source := "s", summary := "m" }]),
         ("B", [{ title := "u", link := "k", published := "q", source := "r", summary := "n" }])]
      = pre ++ (toString (companiesWithNews
          [("A", [{ title := "t", link := "l", published := "p", source := "s", summary := "m" }]),
           ("B", [{ title := "u", link := "k", published := "q", source := "r", summary := "n" }])])
          ++ (" Companies with News" ++ post)) :=
  (c2_subject_line "10/12/2026"
    [("A", [{ title := "t", link := "l", published := "p", source := "s", summary := "m" }]),
     ("B", [{ title := "u", link := "k", published := "q", source := "r", summary := "n" }])]).2.2.1
    (by decide)

/-- _fallback_summary reads its articles only through their titles. -/
theorem fallback_summary_eq_fromTitles (company_name : String) (articles : List Article) :
    fallback_summary company_name articles
      = fallbackFromTitles company_name (articles.map Article.title) := by
  unfold fallback_summary fallbackFromTitles
  simp [List.map_take, List.length_map, List.isEmpty_iff_length_eq_zero]

/-- C4: the deterministic fallback summary follows the fixed templates by
article count - one headline for a single article, both headlines joined by
and for two, the first three headlines for three or more with a trailing
and-K-more clause exactly when more than three articles exist - and it is a
pure function of the company name and the ordered title list; the
two-article template is checked verbatim on the Acme example. -/
theorem c4_fallback_templates :
    ∀ (company_name : String) (arts arts2 : List Article),
      (fallback_summary "Acme"
          [{ title := "Acme raises Series B", link := "", published := "",
             source := "", summary := "" },
           { title := "Acme launches product", link := "", published := "",
             source := "", summary := "" }]
        = "Acme had 2 news items: Acme raises Series B and Acme launches product")
      ∧ (∀ a : Article, fallback_summary company_name [a]
          = company_name ++ " made headlines with: " ++ a.title)
      ∧ (∀ a b : Article, fallback_summary company_name [a, b]
          = company_name ++ " had " ++ toString (2 : Nat) ++ " news items: "
            ++ a.title ++ " and " ++ b.title)
      ∧ (∀ a b c : Article, fallback_summary company_name [a, b, c]
          = company_name ++ " had " ++ toString (3 : Nat)
            ++ " news items this week, including: "
            ++ (a.title ++ ", " ++ b.title ++ ", " ++ c.title))
      ∧ (∀ (a b c : Article) (rest : List Article), rest ≠ [] →
          fallback_summary company_name (a :: b :: c :: rest)
          = company_name ++ " had " ++ toString (rest.length + 3)
            ++ " news items this week, including: "
            ++ (a.title ++ ", " ++ b.title ++ ", " ++ c.title)
            ++ ", and " ++ toString rest.length ++ " more.")
      ∧ (arts.map Article.title = arts2.map Article.title →
          fallback_summary company_name arts = fallback_summary company_name arts2) := by
  intro company_name arts arts2
  refine ⟨by decide, ?_, ?_, ?_, ?_, ?_⟩
  · intro a
    simp [fallback_summary]
  · intro a b
    simp [fallback_summary, String.append_assoc]
  · intro a b c
    simp [fallback_summary, String.intercalate, String.intercalate.go, String.append_assoc]
  · intro a b c rest hne
    have hlen : (a :: b :: c :: rest).length = rest.length + 3 := by simp
    have hpos : 0 < rest.length := List.length_pos.2 hne
    unfold fallback_summary
    rw [if_neg (by simp)]
    rw [if_neg (by simp), if_neg (by simp)]
    rw [if_pos (by simp; omega)]
    simp [String.intercalate, String.intercalate.go, String.append_assoc, hlen]
  · intro h
    rw [fallback_summary_eq_fromTitles, fallback_summary_eq_fromTitles, h]

/-- C4 (witness): the and-K-more clause on a concrete four-article list, and
determinism on two concrete title-identical lists. -/
theorem c4_fallback_templates_witness :
    fallback_summary "Acme"
      [{ title := "t1", link := "a", published := "", source := "", summary := "" },
       { title := "t2", link := "b", published := "", source := "", summary := "" },
       { title := "t3", link := "c", published := "", source := "", summary := "" },
       { title := "t4", link := "d", published := "", source := "", summary := "" }]
    = "Acme" ++ " had " ++ toString ((
        [{ title := "t4", link := "d", published := "", source := "",
           summary := "" }] : List Article).length + 3)
      ++ " news items this week, including: " ++ ("t1" ++ ", " ++ "t2" ++ ", " ++ "t3")
      ++ ", and " ++ toString ((
        [{ title := "t4", link := "d", published := "", source := "",
           summary := "" }] : List Article).length) ++ " more." :=
  (c4_fallback_templates "Acme" [] []).2.2.2.2.1
    { title := "t1", link := "a", published := "", source := "", summary := "" }
    { title := "t2", link := "b", published := "", source := "", summary := "" }
    { title := "t3", link := "c", published := "", source := "", summary := "" }
    [{ title := "t4", link := "d", published := "", source := "", summary := "" }]
    (by decide)

/-- Looking up the inserted key finds the inserted value. -/
theorem lookup_dictInsert_self {α : Type} (d : List (String × α)) (k : String) (v : α) :
    List.lookup k (dictInsert d k v) = some v := by
  induction d with
  | nil => simp [dictInsert, List.lookup]
  | cons p rest ih =>
    rcases p with ⟨k2, v2⟩
    unfold dictInsert
    by_cases h : k2 = k
    · simp [h, List.lookup]
    · simp only [if_neg h]
      have hne : (k == k2) = false := by
        simp [Ne.symm h]
      simp [List.lookup, hne, ih]

/-- Inserting under a different key leaves a lookup unchanged. -/
theorem lookup_dictInsert_ne {α : Type} (d : List (String × α)) (k k2 : String) (v : α)
    (h : k2 ≠ k) : List.lookup k (dictInsert d k2 v) = List.lookup k d := by
  induction d with
  | nil =>
    have hne : (k == k2) = false := by simp [Ne.symm h]
    simp [dictInsert, List.lookup, hne]
  | cons p rest ih =>
    rcases p with ⟨k3, v3⟩
    unfold dictInsert
    by_cases h3 : k3 = k2
    · subst h3
      have hne : (k == k3) = false := by simp [Ne.symm h]
      simp [List.lookup, hne]
    · simp only [if_neg h3]
      simp [List.lookup, ih]

/-- The keys after an insert are the new key plus the old keys. -/
theorem mem_keys_dictInsert {α : Type} (d : List (String × α)) (k x : String) (v : α) :
    x ∈ (dictInsert d k v).map Prod.fst ↔ x = k ∨ x ∈ d.map Prod.fst := by
  induction d with
  | nil => simp [dictInsert]
  | cons p rest ih =>
    rcases p with ⟨k2, v2⟩
    unfold dictInsert
    by_cases h : k2 = k
    · subst h
      simp
    · simp only [if_neg h]
      simp [ih]
      tauto

/-- Processing companies none of which carries the key leaves its lookup
unchanged. -/
theorem accumulate_lookup_of_absent {α : Type} (keyOf : CompanyConfig → String)
    (valOf : CompanyConfig → α) (cs : List CompanyConfig)
    (acc : List (String × α)) (k : String) (h : ∀ c ∈ cs, keyOf c ≠ k) :
    List.lookup k (accumulateResults keyOf valOf cs acc) = List.lookup k acc := by
  induction cs generalizing acc with
  | nil => rfl
  | cons c0 rest ih =>
    have hstep : accumulateResults keyOf valOf (c0 :: rest) acc
        = accumulateResults keyOf valOf rest
          (if keyOf c0 = "" then acc else dictInsert acc (keyOf c0) (valOf c0)) := rfl
    rw [hstep, ih _ (fun c hc => h c (List.mem_cons_of_mem c0 hc))]
    by_cases h0 : keyOf c0 = ""
    · simp [h0]
    · simp only [if_neg h0]
      exact lookup_dictInsert_ne acc k (keyOf c0) (valOf c0) (h c0 (List.mem_cons_self c0 rest))

/-- With pairwise distinct keys, each processed company with a non-empty key
is found in the accumulated results with its own value. -/
theorem accumulate_lookup_found {α : Type} (keyOf : CompanyConfig → String)
    (valOf : CompanyConfig → α) (cs : List CompanyConfig)
    (acc : List (String × α)) (c : CompanyConfig) (hc : c ∈ cs)
    (hk : keyOf c ≠ "") (hnodup : (cs.map keyOf).Nodup) :
    List.lookup (keyOf c) (accumulateResults keyOf valOf cs acc) = some (valOf c) := by
  induction cs generalizing acc with
  | nil => cases hc
  | cons c0 rest ih =>
    have hstep : accumulateResults keyOf valOf (c0 :: rest) acc
        = accumulateResults keyOf valOf rest
          (if keyOf c0 = "" then acc else dictInsert acc (keyOf c0) (valOf c0)) := rfl
    have h2 := hnodup
    simp only [List.map_cons, List.nodup_cons] at h2
    rcases List.mem_cons.1 hc with rfl | hmem
    · rw [hstep, if_neg hk]
      have habsent : ∀ c2 ∈ rest, keyOf c2 ≠ keyOf c := by
        intro c2 hc2 heq
        exact h2.1 (heq ▸ List.mem_map_of_mem keyOf hc2)
      rw [accumulate_lookup_of_absent keyOf valOf rest _ _ habsent]
      exact lookup_dictInsert_self acc (keyOf c) (valOf c)
    · rw [hstep]
      exact ih _ hmem h2.2

/-- Every key of the accumulated results is a non-empty display key of some
processed company (starting from an empty accumulator). -/
theorem accumulate_keys_from_nil {α : Type} (keyOf : CompanyConfig → String)
    (valOf : CompanyConfig → α) (cs : List CompanyConfig)
    (acc : List (String × α)) (k : String)
    (h : k ∈ (accumulateResults keyOf valOf cs acc).map Prod.fst) :
    k ∈ acc.map Prod.fst ∨ ∃ c ∈ cs, keyOf c = k ∧ keyOf c ≠ "" := by
  induction cs generalizing acc with
  | nil => exact Or.inl h
  | cons c0 rest ih =>
    have hstep : accumulateResults keyOf valOf (c0 :: rest) acc
        = accumulateResults keyOf valOf rest
          (if keyOf c0 = "" then acc else dictInsert acc (keyOf c0) (valOf c0)) := rfl
    rw [hstep] at h
    rcases ih _ h with hacc | ⟨c, hcm, hck⟩
    · by_cases h0 : keyOf c0 = ""
      · rw [if_pos h0] at hacc
        exact Or.inl hacc
      · rw [if_neg h0] at hacc
        rcases (mem_keys_dictInsert acc (keyOf c0) k (valOf c0)).1 hacc with rfl | hin
        · exact Or.inr ⟨c0, List.mem_cons_self c0 rest, rfl, h0⟩
        · exact Or.inl hin
    · exact Or.inr ⟨c, List.mem_cons_of_mem c0 hcm, hck⟩

/-- C10: with pairwise distinct display names, a company configured as a
dict with a search override is fetched for news with the override string but
looked up for funding with its display name, both results are stored under
the display name, and no result mapping has an empty or unconfigured key. -/
theorem c10_override_queries :
    ∀ (fetchOne : String → List Article) (getOne : String → FundingRecord)
      (companies : List CompanyConfig) (n srch : String),
      (companies.map displayName).Nodup →
      (CompanyConfig.entry (some n) (some srch) ∈ companies → n ≠ "" →
        List.lookup n (fetch_all_companies_news fetchOne companies)
          = some (fetchOne srch)
        ∧ List.lookup n (get_all_funding_info getOne companies)
          = some (getOne n))
      ∧ (∀ k, k ∈ (fetch_all_companies_news fetchOne companies).map Prod.fst →
          k ≠ "" ∧ ∃ c ∈ companies, displayName c = k)
      ∧ (∀ k, k ∈ (get_all_funding_info getOne companies).map Prod.fst →
          k ≠ "" ∧ ∃ c ∈ companies, displayName c = k) := by
  intro fetchOne getOne companies n srch hnodup
  refine ⟨?_, ?_, ?_⟩
  · intro hmem hne
    have hdn : displayName (CompanyConfig.entry (some n) (some srch)) = n := rfl
    constructor
    · have := accumulate_lookup_found displayName (fun c => fetchOne (newsQuery c))
        companies [] (CompanyConfig.entry (some n) (some srch)) hmem
        (by simpa [hdn] using hne) hnodup
      simpa [fetch_all_companies_news, hdn, newsQuery] using this
    · have := accumulate_lookup_found displayName (fun c => getOne (fundingQuery c))
        companies [] (CompanyConfig.entry (some n) (some srch)) hmem
        (by simpa [hdn] using hne) hnodup
      simpa [get_all_funding_info, hdn, fundingQuery] using this
  · intro k hk
    rcases accumulate_keys_from_nil displayName _ companies [] k hk with h0 | ⟨c, hcm, hck, hne⟩
    · simp at h0
    · exact ⟨hck ▸ hne, c, hcm, hck⟩
  · intro k hk
    rcases accumulate_keys_from_nil displayName _ companies [] k hk with h0 | ⟨c, hcm, hck, hne⟩
    · simp at h0
    · exact ⟨hck ▸ hne, c, hcm, hck⟩

/-- C10 (witness): one company with display name Acme and search override
Acme Corp is fetched for news with the override and for funding with the
display name. -/
theorem c10_override_queries_witness :
    List.lookup "Acme"
      (fetch_all_companies_news
        (fun q => [{ title := q, link := "", published := "", source := "", summary := "" }])
        [CompanyConfig.entry (some "Acme") (some "Acme Corp")])
      = some [{ title := "Acme Corp", link := "", published := "",
                source := "", summary := "" }]
    ∧ List.lookup "Acme"
      (get_all_funding_info
        (fun q => { company := q, status := "", last_funding_round := none,
                    total_raised := none, valuation := none, source := none })
        [CompanyConfig.entry (some "Acme") (some "Acme Corp")])
      = some { company := "Acme", status := "", last_funding_round := none,
               total_raised := none, valuation := none, source := none } :=
  (c10_override_queries
    (fun q => [{ title := q, link := "", published := "", source := "", summary := "" }])
    (fun q => { company := q, status := "", last_funding_round := none,
                total_raised := none, valuation := none, source := none })
    [CompanyConfig.entry (some "Acme") (some "Acme Corp")] "Acme" "Acme Corp"
    (by decide)).1 (by decide) (by decide)

/-- Membership is preserved by the insertion step of the stable sort. -/
theorem mem_insertByName {α : Type} (x y : String × α) (l : List (String × α)) :
    y ∈ insertByName x l ↔ y = x ∨ y ∈ l := by
  induction l with
  | nil => simp [insertByName]
  | cons z zs ih =>
    unfold insertByName
    by_cases h : charsLe x.1.data z.1.data
    · simp [h]
    · simp [h, ih]
      tauto

/-- Sorting by name preserves membership. -/
theorem mem_sortByName {α : Type} (y : String × α) (l : List (String × α)) :
    y ∈ sortByName l ↔ y ∈ l := by
  induction l with
  | nil => simp [sortByName]
  | cons z zs ih =>
    simp [sortByName, mem_insertByName, ih]

/-- In a mapping with pairwise distinct keys, a key determines its value. -/
theorem value_eq_of_nodup_fst {α : Type} (l : List (String × α)) (a : String) (b c : α)
    (hnodup : (l.map Prod.fst).Nodup) (hb : (a, b) ∈ l) (hc : (a, c) ∈ l) : b = c := by
  induction l with
  | nil => cases hb
  | cons p rest ih =>
    have h2 := hnodup
    simp only [List.map_cons, List.nodup_cons] at h2
    rcases List.mem_cons.1 hb with rfl | hb2
    · rcases List.mem_cons.1 hc with heq | hc2
      · exact (congrArg Prod.snd heq).symm
      · exact absurd (List.mem_map_of_mem Prod.fst hc2) (by simpa using h2.1)
    · rcases List.mem_cons.1 hc with rfl | hc2
      · exact absurd (List.mem_map_of_mem Prod.fst hb2) (by simpa using h2.1)
      · exact ih h2.2 hb2 hc2

/-- C6: a company with an empty article list is listed as a bullet under the
NO NEWS THIS WEEK section of the digest, does not appear among the detailed
company reports, is recorded with no summary by the batch summarizer for any
per-company generator, and the per-company summarizer itself returns none on
an empty article list. -/
theorem c6_no_news_handling :
    ∀ (digest_date generated_ts company_name : String)
      (nd : List (String × List Article))
      (fd : Option (List (String × FundingRecord)))
      (ai : Option (List (String × Option String)))
      (g : String → List Article → Option String)
      (aiCall : String → Option String),
      (company_name, ([] : List Article)) ∈ nd →
      (nd.map Prod.fst).Nodup →
      ("  • " ++ company_name) ∈ digestLines digest_date generated_ts nd fd ai
      ∧ company_name ∉ (withNews nd).map Prod.fst
      ∧ (company_name, (none : Option String)) ∈ summarize_all_companies g nd
      ∧ summarize_company_news aiCall company_name [] = none := by
  intro digest_date generated_ts company_name nd fd ai g aiCall hmem hnodup
  have hwo : (company_name, ([] : List Article)) ∈ withoutNews nd :=
    (mem_sortByName _ _).2 (List.mem_filter.2 ⟨hmem, by simp⟩)
  refine ⟨?_, ?_, ?_, rfl⟩
  · have hne : ¬ (withoutNews nd).isEmpty := by
      rcases hlist : withoutNews nd with _ | ⟨p, rest⟩
      · rw [hlist] at hwo
        cases hwo
      · simp
    have hbullet : ("  • " ++ company_name)
        ∈ (withoutNews nd).map (fun p => "  • " ++ p.1) := by
      exact List.mem_map.2 ⟨(company_name, []), hwo, rfl⟩
    simp only [digestLines, List.mem_append]
    left
    right
    rw [if_neg (by simpa using hne)]
    simp [hbullet]
  · intro hin
    rcases List.mem_map.1 hin with ⟨⟨name2, arts⟩, hin2, hfst⟩
    simp at hfst
    have hfil := (mem_sortByName _ _).1 hin2
    have harts := (List.mem_filter.1 hfil).2
    have hmem2 := (List.mem_filter.1 hfil).1
    have hempty : arts = [] :=
      value_eq_of_nodup_fst nd company_name arts [] hnodup (hfst ▸ hmem2) hmem
    simp [hempty] at harts
  · exact List.mem_map.2 ⟨(company_name, []), hmem, by simp [summarize_all_companies]⟩

/-- C6 (witness): a single company with no articles is bulleted under the
no-news section, absent from the with-news list, and summarized as none. -/
theorem c6_no_news_handling_witness :
    ("  • " ++ "Acme") ∈ digestLines "d" "t" [("Acme", [])] none none
    ∧ "Acme" ∉ (withNews [("Acme", [])]).map Prod.fst
    ∧ ("Acme", (none : Option String))
      ∈ summarize_all_companies (fun _ _ => some "s") [("Acme", [])]
    ∧ summarize_company_news (fun _ => none) "Acme" [] = none :=
  c6_no_news_handling "d" "t" "Acme" [("Acme", [])] none none
    (fun _ _ => some "s") (fun _ => none) (by decide) (by decide)

/-- C7: generate_digest is total on well-shaped input - an absent funding or
summaries mapping behaves exactly like an empty one, the rendered output
always carries the digest header, and a company found in neither mapping
renders its section with the funding and summary lines omitted and the rest
intact. -/
theorem c7_digest_total :
    ∀ (digest_date generated_ts : String) (nd : List (String × List Article))
      (fd : Option (List (String × FundingRecord)))
      (ai : Option (List (String × Option String))),
      generate_digest digest_date generated_ts nd none ai
        = generate_digest digest_date generated_ts nd (some []) ai
      ∧ generate_digest digest_date generated_ts nd fd none
        = generate_digest digest_date generated_ts nd fd (some [])
      ∧ "PORTFOLIO WEEKLY DIGEST" ∈ digestLines digest_date generated_ts nd fd ai
      ∧ ∀ (company_name : String) (articles : List Article),
          sectionLines company_name articles none none
          = [dashes, pyUpper company_name, dashes, ""]
            ++ (if articles.isEmpty then ["No news this week.", ""]
                else ("LINKS (" ++ toString articles.length ++ " articles):")
                  :: "" :: articleLines 1 articles) := by
  intro digest_date generated_ts nd fd ai
  refine ⟨rfl, rfl, ?_, ?_⟩
  · simp [digestLines]
  · intro company_name articles
    rfl

/-- A successful lookup returns one of the stored values. -/
theorem lookup_val_mem {α β : Type} [BEq α] {l : List (α × β)} {k : α} {v : β}
    (h : List.lookup k l = some v) : v ∈ l.map Prod.snd := by
  induction l with
  | nil => simp [List.lookup] at h
  | cons p rest ih =>
    rcases p with ⟨k2, v2⟩
    cases hb : (k == k2)
    · simp [List.lookup, hb] at h
      simp [ih h]
    · simp [List.lookup, hb] at h
      subst h
      simp

/-- No character upper-cases to the lower-case letter u. -/
theorem upperChar_ne_lower_u (c : Char) : upperChar c ≠ 'u' := by
  unfold upperChar
  rcases h : upperTable.lookup c with _ | u
  · simp only [Option.getD_none]
    intro hc
    subst hc
    rw [show upperTable.lookup 'u' = some 'U' from by decide] at h
    cases h
  · simp only [Option.getD_some]
    have hmem : u ∈ upperTable.map Prod.snd := lookup_val_mem h
    have hall : ∀ x ∈ upperTable.map Prod.snd, x ≠ 'u' := by decide
    exact hall u hmem

/-- The head of an appended string is the head of its non-empty first part. -/
theorem head_append_of_head (s : String) (c : Char) (h : s.data.head? = some c)
    (t : String) : (s ++ t).data.head? = some c := by
  rw [String.data_append]
  rcases hd : s.data with _ | ⟨x, xs⟩
  · rw [hd] at h
    cases h
  · rw [hd] at h
    simpa using h

/-- Strings with distinct head characters differ. -/
theorem ne_of_heads {s t : String} {c d : Char} (hs : s.data.head? = some c)
    (ht : t.data.head? = some d) (hcd : c ≠ d) : s ≠ t := by
  intro h
  rw [h, ht] at hs
  exact hcd (Option.some.inj hs.symm)

/-- A string with a head character is not empty. -/
theorem ne_empty_of_head {s : String} {c : Char} (hs : s.data.head? = some c) :
    s ≠ "" := by
  intro h
  rw [h] at hs
  cases hs

/-- Every funding line starts with the letter F. -/
theorem funding_line_head (rest : String) :
    ("Funding: " ++ rest).data.head? = some 'F' :=
  head_append_of_head "Funding: " 'F' rfl rest

/-- The dash separator starts with a dash. -/
theorem dashes_head : dashes.data.head? = some '-' := rfl

/-- An upper-cased company name is never a funding line: its second
character would have to be a lower-case u. -/
theorem pyUpper_ne_funding (s rest : String) : pyUpper s ≠ "Funding: " ++ rest := by
  intro h
  have hd := congrArg String.data h
  rw [String.data_append] at hd
  have hpy : (pyUpper s).data = s.data.map upperChar := rfl
  rw [hpy] at hd
  have hfd : "Funding: ".data = ['F', 'u', 'n', 'd', 'i', 'n', 'g', ':', ' '] := rfl
  rw [hfd] at hd
  rcases hsd : s.data with _ | ⟨c0, tl⟩
  · rw [hsd] at hd
    cases hd
  · rcases htl : tl with _ | ⟨c1, tl2⟩
    · rw [hsd, htl] at hd
      simp at hd
    · rw [hsd, htl] at hd
      simp at hd
      exact upperChar_ne_lower_u c1 hd.2.1

/-- No numbered article line is a funding line: each starts with spaces or
is blank. -/
theorem funding_not_in_articleLines (x : String) (arts : List Article) :
    ∀ i : Nat, ("Funding: " ++ x) ∉ articleLines i arts := by
  induction arts with
  | nil =>
    intro i
    simp [articleLines]
  | cons a rest ih =>
    intro i
    simp only [articleLines, List.mem_cons]
    push_neg
    have h1 := head_append_of_head "  [" ' ' rfl (toString i)
    have h2 := head_append_of_head _ _ (head_append_of_head _ _ h1 "] ") a.title
    refine ⟨ne_of_heads (funding_line_head x) h2 (by decide), ?_, ?_, ?_, ih (i + 1)⟩
    · exact ne_of_heads (funding_line_head x)
        (head_append_of_head "      " ' ' rfl a.link) (by decide)
    · have h3 := head_append_of_head _ _ (head_append_of_head _ _
        (head_append_of_head "      " ' ' rfl a.source) " | ") a.published
      exact ne_of_heads (funding_line_head x) h3 (by decide)
    · exact ne_empty_of_head (funding_line_head x)

/-- C5: for a company with articles and a present funding record, the
rendered section carries a Funding line exactly when the formatted funding
summary differs from the literal sentinel string. -/
theorem c5_funding_line_iff :
    ∀ (company_name : String) (articles : List Article) (record : FundingRecord)
      (ai_summary : Option String),
      articles ≠ [] →
      ((∃ rest, ("Funding: " ++ rest)
          ∈ sectionLines company_name articles (some record) ai_summary)
        ↔ format_funding_summary record ≠ "No recent public funding data available") := by
  intro company_name articles record ai_summary hne
  have hae : articles.isEmpty = false := by
    simpa [List.isEmpty_iff] using hne
  constructor
  · rintro ⟨rest, hmem⟩ heq
    simp only [sectionLines, heq, ne_eq, not_true_eq_false, if_false, hae,
      Bool.false_eq_true, List.nil_append, List.append_nil] at hmem
    have hdash : ("Funding: " ++ rest) = dashes → False :=
      fun h => ne_of_heads (funding_line_head rest) dashes_head (by decide) h
    have hup : ("Funding: " ++ rest) = pyUpper company_name → False :=
      fun h => pyUpper_ne_funding company_name rest h.symm
    have hemp : ("Funding: " ++ rest) = "" → False :=
      fun h => ne_empty_of_head (funding_line_head rest) h
    have hlinks : ("Funding: " ++ rest)
        ≠ "LINKS (" ++ toString articles.length ++ " articles):" :=
      ne_of_heads (funding_line_head rest)
        (head_append_of_head _ _
          (head_append_of_head "LINKS (" 'L' rfl (toString articles.length))
          " articles):") (by decide)
    have hart := funding_not_in_articleLines rest articles 1
    rcases ai_summary with _ | s
    · simp only [List.mem_append, List.mem_cons, List.not_mem_nil, or_false] at hmem
      tauto
    · by_cases hs : s = ""
      · simp only [hs, ne_eq, not_true_eq_false, if_false,
          List.mem_append, List.mem_cons, List.not_mem_nil, or_false] at hmem
        tauto
      · have hsum2 : ("Funding: " ++ rest) = "SUMMARY:" → False :=
          fun h => ne_of_heads (funding_line_head rest)
            (rfl : ("SUMMARY:").data.head? = some 'S') (by decide) h
        have hind : ("Funding: " ++ rest) = "  " ++ s → False :=
          fun h => ne_of_heads (funding_line_head rest)
            (head_append_of_head "  " ' ' rfl s) (by decide) h
        simp only [hs, ne_eq, not_false_eq_true, if_true,
          List.mem_append, List.mem_cons, List.not_mem_nil, or_false] at hmem
        tauto
  · intro hdiff
    refine ⟨format_funding_summary record, ?_⟩
    simp only [sectionLines, hdiff, ne_eq, not_false_eq_true, if_true]
    simp [List.mem_append]

/-- C5 (witness): a record whose status is the may-be-available marker
formats to a non-sentinel summary, so its section carries a Funding line. -/
theorem c5_funding_line_iff_witness :
    ∃ rest, ("Funding: " ++ rest)
      ∈ sectionLines "Acme"
          [{ title := "t", link := "l", published := "p", source := "s", summary := "m" }]
          (some { company := "Acme",
                  status := "Some funding information may be available in search results",
                  last_funding_round := none, total_raised := none,
                  valuation := none, source := none })
          none :=
  (c5_funding_line_iff "Acme"
    [{ title := "t", link := "l", published := "p", source := "s", summary := "m" }]
    { company := "Acme",
      status := "Some funding information may be available in search results",
      last_funding_round := none, total_raised := none,
      valuation := none, source := none }
    none (by decide)).2 (by decide)
